import Mathlib

/-!
Shallow embedding of the NFT-checker bot (`src/main.py`) and proofs about it.

The program has five parts:
* `check_nft` — posts a `getAssetsByOwner` request and scans the returned
  assets for a grouping entry with `group_key == "collection"` and
  `group_value == COLLECTION_ID` (lines 67-95);
* `save_wallet` — upserts `(wallet_address, int(has_nft))` into the sqlite
  table `wallets`, catching `sqlite3.Error` (lines 43-57);
* `init_db` — creates the `wallets` table with an AUTOINCREMENT primary key
  and a UNIQUE `wallet_address` column (lines 28-41);
* the length guard in `check_wallet` (lines 120-122);
* the `check_wallet` handler itself: strip, validate, query, persist,
  report (lines 116-132).

Effects are made explicit: the remote response is a parameter, the sqlite
store is a list of rows plus the AUTOINCREMENT counter, and Python
exceptions are the `error` branch of `Except`.
-/

namespace CheckNft

/-! ### Remote response model -/

/-- One entry of an asset's `grouping` array: a parsed
`{group_key, group_value}` pair. -/
structure GroupEntry where
  group_key : String
  group_value : String
  deriving DecidableEq

/-- One item of `result.items`.  The `grouping` field is `none` when the
asset object has no `"grouping"` key (the `if "grouping" in nft` test). -/
structure Asset where
  grouping : Option (List GroupEntry)
  deriving DecidableEq

/-- Body of the HTTP response.  `malformed` is a body on which
`response.json()` raises; `json none` is a decoded body in which `"result"`
or `result["items"]` is absent; `json (some items)` carries the item list. -/
inductive RBody where
  | malformed : RBody
  | json : Option (List Asset) → RBody
  deriving DecidableEq

/-- The HTTP response `requests.post` returns. -/
structure RemoteResponse where
  status_code : Nat
  body : RBody
  deriving DecidableEq

/-- Python exceptions that the program can let escape. -/
inductive PyError where
  | jsonDecodeError : PyError
  | unboundLocalError : PyError
  deriving DecidableEq

/-- The inner loop of `check_nft` (lines 91-94): scan one asset's
`grouping` list, returning `true` on the first entry whose `group_key` is
`"collection"` and whose `group_value` is the configured collection id. -/
def scanGroups (cid : String) : List GroupEntry → Bool
  | [] => false
  | g :: gs =>
    if g.group_key = "collection" ∧ g.group_value = cid then true
    else scanGroups cid gs

/-- The outer loop of `check_nft` (lines 89-94): scan the parsed items in
order, skipping assets without a `"grouping"` key, returning `true` on the
first matching grouping entry. -/
def scanAssets (cid : String) : List Asset → Bool
  | [] => false
  | a :: rest =>
    match a.grouping with
    | none => scanAssets cid rest
    | some gs => if scanGroups cid gs then true else scanAssets cid rest

/-- `check_nft` (lines 67-95).  `cid` is the `COLLECTION_ID` configuration
value, `resp` the response the remote endpoint returns for
`wallet_address`.  On status 200 the body is decoded (`response.json()`
raises `jsonDecodeError` on a malformed body); a decoded body missing
`result`/`items` falls through to `return False`; otherwise the items are
scanned.  Any non-200 status falls through to `return False`. -/
def check_nft (cid wallet_address : String) (resp : RemoteResponse) :
    Except PyError Bool :=
  if resp.status_code = 200 then
    match resp.body with
    | .malformed => .error .jsonDecodeError
    | .json none => .ok false
    | .json (some items) => .ok (scanAssets cid items)
  else
    .ok false

/-! ### C1: the membership decision -/

theorem scanGroups_eq_true_iff (cid : String) (gs : List GroupEntry) :
    scanGroups cid gs = true ↔
      ∃ g ∈ gs, g.group_key = "collection" ∧ g.group_value = cid := by
  induction gs with
  | nil => simp [scanGroups]
  | cons g gs ih =>
    by_cases h : g.group_key = "collection" ∧ g.group_value = cid
    · simp [scanGroups, h]
    · simp only [scanGroups, if_neg h, ih, List.mem_cons]
      constructor
      · rintro ⟨g', hg', hk⟩
        exact ⟨g', Or.inr hg', hk⟩
      · rintro ⟨g', hg' | hg', hk⟩
        · exact absurd (hg' ▸ hk) h
        · exact ⟨g', hg', hk⟩

theorem scanAssets_eq_true_iff (cid : String) (items : List Asset) :
    scanAssets cid items = true ↔
      ∃ a ∈ items, ∃ gs, a.grouping = some gs ∧
        ∃ g ∈ gs, g.group_key = "collection" ∧ g.group_value = cid := by
  induction items with
  | nil => simp [scanAssets]
  | cons a rest ih =>
    cases hg : a.grouping with
    | none =>
      simp only [scanAssets, hg, ih]
      constructor
      · rintro ⟨x, hx, hrest⟩
        exact ⟨x, List.mem_cons_of_mem a hx, hrest⟩
      · rintro ⟨x, hx, gs', hgs', hmatch⟩
        rcases List.mem_cons.1 hx with hxa | hxr
        · rw [hxa, hg] at hgs'
          exact absurd hgs' (by simp)
        · exact ⟨x, hxr, gs', hgs', hmatch⟩
    | some gs =>
      simp only [scanAssets, hg]
      by_cases h : scanGroups cid gs = true
      · rw [if_pos h]
        constructor
        · intro _
          exact ⟨a, List.mem_cons_self a rest, gs, hg,
            (scanGroups_eq_true_iff cid gs).1 h⟩
        · intro _
          rfl
      · rw [if_neg h, ih]
        constructor
        · rintro ⟨x, hx, hrest⟩
          exact ⟨x, List.mem_cons_of_mem a hx, hrest⟩
        · rintro ⟨x, hx, gs', hgs', hmatch⟩
          rcases List.mem_cons.1 hx with hxa | hxr
          · rw [hxa, hg] at hgs'
            injection hgs' with hgg
            subst hgg
            exact absurd ((scanGroups_eq_true_iff cid gs).2 hmatch) h
          · exact ⟨x, hxr, gs', hgs', hmatch⟩

/-- C1: for every asset list and configured collection id, the membership
decision — `check_nft`'s scan of the parsed items — reports `true` iff at
least one asset carries a grouping entry whose `group_key` is exactly
`"collection"` and whose `group_value` exactly equals the configured id;
in particular it reports `false` on an empty list and on a list with no
matching entry. -/
theorem check_nft_decision_iff (cid wallet_address : String)
    (items : List Asset) :
    check_nft cid wallet_address ⟨200, .json (some items)⟩ = .ok true ↔
      ∃ a ∈ items, ∃ gs, a.grouping = some gs ∧
        ∃ g ∈ gs, g.group_key = "collection" ∧ g.group_value = cid := by
  have h : check_nft cid wallet_address ⟨200, .json (some items)⟩
      = .ok (scanAssets cid items) := rfl
  rw [h]
  simp only [Except.ok.injEq]
  exact scanAssets_eq_true_iff cid items

/-! ### C2: remote-outcome handling in `check_nft` -/

/-- C2 counterexample: on an HTTP 200 response whose body is not decodable
JSON, `check_nft` does not degrade to "no assets" — `response.json()`
(line 84) raises, and the error propagates to the caller, refuting the
claim that the client never raises for a malformed response body. -/
theorem check_nft_raises_on_malformed_body :
    check_nft "TrinityCollectionId" "Gh9ZwEmdLJ8DscKNTkTqPbNwLNNBjuSzaG9Vp2KGtKJr"
      ⟨200, .malformed⟩ = .error .jsonDecodeError := rfl

/-- C2 amended: for every address, `check_nft` degrades to the
"no assets observed" result (`.ok false`) without raising whenever the
response has a non-success status, or has a decodable body in which the
expected `result`/`items` fields are missing; only a body on which JSON
decoding itself fails makes it raise. -/
theorem check_nft_fail_soft (cid wallet_address : String)
    (resp : RemoteResponse)
    (h : resp.status_code ≠ 200 ∨ resp.body = .json none) :
    check_nft cid wallet_address resp = .ok false := by
  rcases h with h | h
  · rw [check_nft, if_neg h]
  · rcases resp with ⟨sc, body⟩
    cases body with
    | malformed => exact absurd h (by simp)
    | json items =>
      injection h with h
      subst h
      rw [check_nft]
      by_cases hsc : sc = 200
      · rw [if_pos hsc]
      · rw [if_neg hsc]

/-- C2 amended, witness at a concrete non-success response. -/
theorem check_nft_fail_soft_witness :
    ((⟨500, .json none⟩ : RemoteResponse).status_code ≠ 200 ∨
      (⟨500, .json none⟩ : RemoteResponse).body = .json none) ∧
    check_nft "TrinityCollectionId" "Gh9ZwEmdLJ8DscKNTkTqPbNwLNNBjuSzaG9Vp2KGtKJr"
      ⟨500, .json none⟩ = .ok false :=
  ⟨Or.inl (by decide),
    check_nft_fail_soft "TrinityCollectionId"
      "Gh9ZwEmdLJ8DscKNTkTqPbNwLNNBjuSzaG9Vp2KGtKJr"
      ⟨500, .json none⟩ (Or.inl (by decide))⟩

/-! ### Ledger model

`init_db` (lines 28-41) creates
`wallets (id INTEGER PRIMARY KEY AUTOINCREMENT, wallet_address TEXT UNIQUE, has_nft INTEGER)`.
The store is modelled as the list of rows in insertion order together with
the AUTOINCREMENT counter (sqlite assigns ids 1, 2, ... and, with
AUTOINCREMENT, never reuses one). -/

/-- One row of the `wallets` table. -/
structure Row where
  id : Nat
  wallet_address : String
  has_nft : Int
  deriving DecidableEq

/-- The `wallets` table plus the AUTOINCREMENT counter. -/
structure Store where
  rows : List Row
  nextId : Nat
  deriving DecidableEq

/-- The empty store `init_db` creates; the first assigned id is 1. -/
def initStore : Store := ⟨[], 1⟩

/-- Python `int(b)`. -/
def pyInt (b : Bool) : Int := if b then 1 else 0

/-- The SQL statement of `save_wallet` (lines 48-52):
`INSERT INTO wallets (wallet_address, has_nft) VALUES (?, ?) ON
CONFLICT(wallet_address) DO UPDATE SET has_nft = ?`.  If a row with this
`wallet_address` exists (the UNIQUE constraint fires), its `has_nft` is
overwritten in place; otherwise a new row is appended with the next
AUTOINCREMENT id. -/
def sqlUpsert (s : Store) (wallet_address : String) (v : Int) : Store :=
  if s.rows.any (fun r => r.wallet_address == wallet_address) then
    { s with rows := s.rows.map (fun r =>
        if r.wallet_address == wallet_address then { r with has_nft := v }
        else r) }
  else
    { rows := s.rows ++ [⟨s.nextId, wallet_address, v⟩],
      nextId := s.nextId + 1 }

/-- Behaviour of the backing sqlite store during one `save_wallet` call:
`connectError` — `sqlite3.connect` raises `sqlite3.Error`;
`writeError` — the connection opens but `execute`/`commit` raises
`sqlite3.Error`; `ok` — the statement succeeds. -/
inductive StorageMode where
  | connectError : StorageMode
  | writeError : StorageMode
  | ok : StorageMode
  deriving DecidableEq

/-- The `try` block of `save_wallet` (lines 45-53): whether the local
variable `conn` got bound, and the block's result (`error` means a
`sqlite3.Error` was raised inside the block). -/
def tryBody (mode : StorageMode) (s : Store) (wallet_address : String)
    (has_nft : Bool) : Bool × Except Unit Store :=
  match mode with
  | .connectError => (false, .error ())
  | .writeError => (true, .error ())
  | .ok => (true, .ok (sqlUpsert s wallet_address (pyInt has_nft)))

/-- `save_wallet` (lines 43-57).  A `sqlite3.Error` from the `try` block is
caught and logged by the `except` clause (line 54-55), leaving the store
unchanged; then the `finally` clause (line 56-57) runs `conn.close()`,
which raises `UnboundLocalError` when `conn` was never assigned — that is,
when `sqlite3.connect` itself was what raised. -/
def save_wallet (mode : StorageMode) (s : Store) (wallet_address : String)
    (has_nft : Bool) : Except PyError Store :=
  match tryBody mode s wallet_address has_nft with
  | (connBound, res) =>
    let afterExcept := match res with
      | .ok s2 => s2
      | .error _ => s
    if connBound then .ok afterExcept else .error .unboundLocalError

/-- Iterated `sqlUpsert`: the store after a sequence of successful
`save_wallet` calls, in order. -/
def applyOps (s : Store) : List (String × Bool) → Store
  | [] => s
  | op :: ops => applyOps (sqlUpsert s op.1 (pyInt op.2)) ops

/-! ### C5: store invariants -/

/-- Table invariant: addresses are pairwise distinct (the UNIQUE
constraint), ids strictly increase in insertion order, and every id is
below the AUTOINCREMENT counter. -/
def Inv (s : Store) : Prop :=
  s.rows.Pairwise (fun r r' => r.wallet_address ≠ r'.wallet_address) ∧
  s.rows.Chain' (fun r r' => r.id < r'.id) ∧
  ∀ r ∈ s.rows, r.id < s.nextId

theorem inv_initStore : Inv initStore :=
  ⟨List.Pairwise.nil, List.chain'_nil, by intro r hr; cases hr⟩

theorem inv_sqlUpsert (s : Store) (a : String) (v : Int) (h : Inv s) :
    Inv (sqlUpsert s a v) := by
  obtain ⟨hpw, hch, hbd⟩ := h
  unfold sqlUpsert
  by_cases hc : (s.rows.any fun r => r.wallet_address == a) = true
  · rw [if_pos hc]
    have haddr : ∀ r : Row,
        ((if r.wallet_address == a then { r with has_nft := v } else r) :
          Row).wallet_address = r.wallet_address := by
      intro r; split <;> rfl
    have hid : ∀ r : Row,
        ((if r.wallet_address == a then { r with has_nft := v } else r) :
          Row).id = r.id := by
      intro r; split <;> rfl
    refine ⟨?_, ?_, ?_⟩
    · rw [List.pairwise_map]
      refine hpw.imp ?_
      intro x y hne
      rw [haddr x, haddr y]
      exact hne
    · rw [List.chain'_map]
      refine hch.imp ?_
      intro x y hxy
      rw [hid x, hid y]
      exact hxy
    · intro r hr
      obtain ⟨r₀, hr₀, rfl⟩ := List.mem_map.1 hr
      rw [hid]
      exact hbd r₀ hr₀
  · rw [if_neg hc]
    rw [Bool.not_eq_true, List.any_eq_false] at hc
    refine ⟨?_, ?_, ?_⟩
    · rw [List.pairwise_append]
      refine ⟨hpw, List.pairwise_singleton _ _, ?_⟩
      intro x hx y hy
      rw [List.mem_singleton] at hy
      subst hy
      have := hc x hx
      rw [beq_iff_eq] at this
      exact this
    · rw [List.chain'_append]
      refine ⟨hch, List.chain'_singleton _, ?_⟩
      intro x hx y hy
      rw [List.head?_cons, Option.mem_some_iff] at hy
      subst hy
      exact hbd x (List.mem_of_mem_getLast? hx)
    · intro r hr
      rcases List.mem_append.1 hr with hr | hr
      · exact Nat.lt_succ_of_lt (hbd r hr)
      · rw [List.mem_singleton] at hr
        subst hr
        exact Nat.lt_succ_self _

theorem inv_applyOps (ops : List (String × Bool)) (s : Store) (h : Inv s) :
    Inv (applyOps s ops) := by
  induction ops generalizing s with
  | nil => exact h
  | cons op ops ih => exact ih _ (inv_sqlUpsert s op.1 (pyInt op.2) h)

theorem mem_sqlUpsert_of_mem (s : Store) (a : String) (v : Int) (r : Row)
    (hr : r ∈ s.rows) :
    ∃ r' ∈ (sqlUpsert s a v).rows,
      r'.id = r.id ∧ r'.wallet_address = r.wallet_address := by
  unfold sqlUpsert
  by_cases hc : (s.rows.any fun r => r.wallet_address == a) = true
  · rw [if_pos hc]
    refine ⟨_, List.mem_map_of_mem _ hr, ?_⟩
    dsimp only
    split <;> exact ⟨rfl, rfl⟩
  · rw [if_neg hc]
    exact ⟨r, List.mem_append_left _ hr, rfl, rfl⟩

theorem mem_applyOps_of_mem (ops : List (String × Bool)) (s : Store)
    (r : Row) (hr : r ∈ s.rows) :
    ∃ r' ∈ (applyOps s ops).rows,
      r'.id = r.id ∧ r'.wallet_address = r.wallet_address := by
  induction ops generalizing s r with
  | nil => exact ⟨r, hr, rfl, rfl⟩
  | cons op ops ih =>
    obtain ⟨r', hr', hid, haddr⟩ :=
      mem_sqlUpsert_of_mem s op.1 (pyInt op.2) r hr
    obtain ⟨r'', hr'', hid', haddr'⟩ := ih _ r' hr'
    exact ⟨r'', hr'', by rw [hid', hid], by rw [haddr', haddr]⟩

/-- C5: after any sequence of upserts starting from the store `init_db`
creates, the `wallets` table has pairwise-distinct addresses (at most one
record per address), its ids strictly increase in insertion order and stay
below the AUTOINCREMENT counter (so an id, once assigned, is never
reassigned), and no record is ever deleted: any record present after some
of the operations is still present — same id, same address — after any
further operations. -/
theorem ledger_store_invariants (ops : List (String × Bool)) :
    ((applyOps initStore ops).rows.Pairwise
      (fun r r' => r.wallet_address ≠ r'.wallet_address)) ∧
    ((applyOps initStore ops).rows.Chain' (fun r r' => r.id < r'.id)) ∧
    (∀ r ∈ (applyOps initStore ops).rows,
      r.id < (applyOps initStore ops).nextId) ∧
    (∀ more : List (String × Bool), ∀ r ∈ (applyOps initStore ops).rows,
      ∃ r' ∈ (applyOps (applyOps initStore ops) more).rows,
        r'.id = r.id ∧ r'.wallet_address = r.wallet_address) := by
  obtain ⟨h1, h2, h3⟩ := inv_applyOps ops initStore inv_initStore
  exact ⟨h1, h2, h3,
    fun more r hr => mem_applyOps_of_mem more (applyOps initStore ops) r hr⟩

/-- C5 witness: concrete run with two inserts, then one further update of
the first address; the first record persists with its id and address. -/
theorem ledger_store_invariants_witness :
    (⟨1, "AAAAAAAAAAAAAAAAAAAAAAAAAAAAAAAA", 1⟩ : Row) ∈
      (applyOps initStore
        [("AAAAAAAAAAAAAAAAAAAAAAAAAAAAAAAA", true),
         ("BBBBBBBBBBBBBBBBBBBBBBBBBBBBBBBB", false)]).rows ∧
    ∃ r' ∈ (applyOps
        (applyOps initStore
          [("AAAAAAAAAAAAAAAAAAAAAAAAAAAAAAAA", true),
           ("BBBBBBBBBBBBBBBBBBBBBBBBBBBBBBBB", false)])
        [("AAAAAAAAAAAAAAAAAAAAAAAAAAAAAAAA", false)]).rows,
      r'.id = (⟨1, "AAAAAAAAAAAAAAAAAAAAAAAAAAAAAAAA", 1⟩ : Row).id ∧
      r'.wallet_address =
        (⟨1, "AAAAAAAAAAAAAAAAAAAAAAAAAAAAAAAA", 1⟩ : Row).wallet_address :=
  ⟨by decide,
    (ledger_store_invariants
      [("AAAAAAAAAAAAAAAAAAAAAAAAAAAAAAAA", true),
       ("BBBBBBBBBBBBBBBBBBBBBBBBBBBBBBBB", false)]).2.2.2
      [("AAAAAAAAAAAAAAAAAAAAAAAAAAAAAAAA", false)]
      ⟨1, "AAAAAAAAAAAAAAAAAAAAAAAAAAAAAAAA", 1⟩ (by decide)⟩

/-! ### C6, C7: upsert algebra -/

theorem sqlUpsert_contains (s : Store) (a : String) (v : Int) :
    ((sqlUpsert s a v).rows.any fun r => r.wallet_address == a) = true := by
  unfold sqlUpsert
  by_cases hc : (s.rows.any fun r => r.wallet_address == a) = true
  · rw [if_pos hc]
    simp only [List.any_eq_true, List.mem_map] at hc ⊢
    obtain ⟨x, hx, hpx⟩ := hc
    exact ⟨_, ⟨x, hx, rfl⟩, by simp [hpx]⟩
  · rw [if_neg hc]
    simp only [List.any_eq_true]
    exact ⟨⟨s.nextId, a, v⟩,
      List.mem_append_right _ (List.mem_singleton_self _), by simp⟩

theorem sqlUpsert_value (s : Store) (a : String) (v : Int) (r : Row)
    (hr : r ∈ (sqlUpsert s a v).rows) (hra : r.wallet_address = a) :
    r.has_nft = v := by
  unfold sqlUpsert at hr
  by_cases hc : (s.rows.any fun r => r.wallet_address == a) = true
  · rw [if_pos hc] at hr
    simp only [List.mem_map] at hr
    obtain ⟨x, hx, rfl⟩ := hr
    by_cases hxa : (x.wallet_address == a) = true
    · rw [if_pos hxa]
    · rw [if_neg hxa] at hra
      rw [Bool.not_eq_true, beq_eq_false_iff_ne] at hxa
      exact absurd hra hxa
  · rw [if_neg hc] at hr
    rcases List.mem_append.1 hr with hr | hr
    · rw [Bool.not_eq_true, List.any_eq_false] at hc
      have hx := hc r hr
      rw [Bool.not_eq_true, beq_eq_false_iff_ne] at hx
      exact absurd hra hx
    · rw [List.mem_singleton] at hr
      subst hr
      rfl

theorem countP_addr_le_one (a : String) (l : List Row)
    (h : l.Pairwise fun r r' => r.wallet_address ≠ r'.wallet_address) :
    l.countP (fun r => r.wallet_address == a) ≤ 1 := by
  induction l with
  | nil => exact Nat.zero_le 1
  | cons r rs ih =>
    rw [List.pairwise_cons] at h
    obtain ⟨hr, hrs⟩ := h
    by_cases hra : (r.wallet_address == a) = true
    · have hz : rs.countP (fun x => x.wallet_address == a) = 0 := by
        rw [List.countP_eq_zero]
        intro x hx hxa
        exact hr x hx ((eq_of_beq hra).trans (eq_of_beq hxa).symm)
      rw [List.countP_cons, hz, if_pos hra]
    · rw [List.countP_cons, if_neg hra, Nat.add_zero]
      exact ih hrs

theorem countP_map_upd (a : String) (v : Int) (l : List Row) :
    (l.map fun r =>
      if r.wallet_address == a then { r with has_nft := v } else r).countP
        (fun r => r.wallet_address == a)
      = l.countP (fun r => r.wallet_address == a) := by
  induction l with
  | nil => rfl
  | cons r rs ih =>
    have haddr : ((if r.wallet_address == a then { r with has_nft := v }
        else r) : Row).wallet_address = r.wallet_address := by
      split <;> rfl
    rw [List.map_cons, List.countP_cons, List.countP_cons, ih, haddr]

theorem countP_sqlUpsert (s : Store) (a : String) (v : Int)
    (h : s.rows.Pairwise fun r r' => r.wallet_address ≠ r'.wallet_address) :
    (sqlUpsert s a v).rows.countP (fun r => r.wallet_address == a) = 1 := by
  unfold sqlUpsert
  by_cases hc : (s.rows.any fun r => r.wallet_address == a) = true
  · rw [if_pos hc]
    dsimp only
    rw [countP_map_upd]
    have hle := countP_addr_le_one a s.rows h
    have hpos : 0 < s.rows.countP (fun r => r.wallet_address == a) := by
      rw [List.countP_pos_iff]
      rw [List.any_eq_true] at hc
      exact hc
    omega
  · rw [if_neg hc]
    dsimp only
    rw [List.countP_append]
    have hz : s.rows.countP (fun r => r.wallet_address == a) = 0 := by
      rw [List.countP_eq_zero]
      rw [Bool.not_eq_true, List.any_eq_false] at hc
      exact hc
    rw [hz]
    simp [List.countP_cons]

theorem sqlUpsert_of_contains (s : Store) (a : String) (v : Int)
    (h : (s.rows.any fun r => r.wallet_address == a) = true) :
    sqlUpsert s a v = { s with rows := s.rows.map (fun r =>
      if r.wallet_address == a then { r with has_nft := v } else r) } := by
  unfold sqlUpsert
  rw [if_pos h]

theorem sqlUpsert_sqlUpsert_same (s : Store) (a : String) (v : Int) :
    sqlUpsert (sqlUpsert s a v) a v = sqlUpsert s a v := by
  have hc := sqlUpsert_contains s a v
  rw [sqlUpsert_of_contains _ _ _ hc]
  have hfix : ∀ r ∈ (sqlUpsert s a v).rows,
      (if r.wallet_address == a then { r with has_nft := v } else r) = r := by
    intro r hr
    by_cases hra : (r.wallet_address == a) = true
    · rw [if_pos hra]
      have hv := sqlUpsert_value s a v r hr (eq_of_beq hra)
      obtain ⟨i, w, x⟩ := r
      dsimp at hv
      rw [hv]
    · rw [if_neg hra]
  rw [List.map_congr_left hfix, List.map_id']

/-- C6: upsert is last-write-wins.  For every reachable prior store state
and every address `A`, `upsert(A, true)` followed by `upsert(A, false)`
leaves exactly one record for `A`, and its `has_nft` value is `0`
(`int(False)`). -/
theorem upsert_last_write_wins (ops : List (String × Bool)) (A : String) :
    (((sqlUpsert (sqlUpsert (applyOps initStore ops) A (pyInt true)) A
        (pyInt false)).rows.filter
      (fun r => r.wallet_address == A)).length = 1) ∧
    ∀ r ∈ (sqlUpsert (sqlUpsert (applyOps initStore ops) A (pyInt true)) A
        (pyInt false)).rows,
      r.wallet_address = A → r.has_nft = 0 := by
  have hinv := inv_applyOps ops initStore inv_initStore
  have hinv1 := inv_sqlUpsert (applyOps initStore ops) A (pyInt true) hinv
  constructor
  · rw [← List.countP_eq_length_filter]
    exact countP_sqlUpsert _ A (pyInt false) hinv1.1
  · intro r hr hra
    exact sqlUpsert_value _ A (pyInt false) r hr hra

/-- C6 witness: from the empty store, `upsert(A, true); upsert(A, false)`
leaves the single record `⟨1, A, 0⟩`. -/
theorem upsert_last_write_wins_witness :
    (((sqlUpsert (sqlUpsert (applyOps initStore [])
        "AAAAAAAAAAAAAAAAAAAAAAAAAAAAAAAA" (pyInt true))
        "AAAAAAAAAAAAAAAAAAAAAAAAAAAAAAAA" (pyInt false)).rows.filter
      (fun r => r.wallet_address == "AAAAAAAAAAAAAAAAAAAAAAAAAAAAAAAA")).length
        = 1) ∧
    (⟨1, "AAAAAAAAAAAAAAAAAAAAAAAAAAAAAAAA", 0⟩ : Row) ∈
      (sqlUpsert (sqlUpsert (applyOps initStore [])
        "AAAAAAAAAAAAAAAAAAAAAAAAAAAAAAAA" (pyInt true))
        "AAAAAAAAAAAAAAAAAAAAAAAAAAAAAAAA" (pyInt false)).rows ∧
    (⟨1, "AAAAAAAAAAAAAAAAAAAAAAAAAAAAAAAA", 0⟩ : Row).has_nft = 0 :=
  ⟨(upsert_last_write_wins [] "AAAAAAAAAAAAAAAAAAAAAAAAAAAAAAAA").1,
    by decide,
    (upsert_last_write_wins [] "AAAAAAAAAAAAAAAAAAAAAAAAAAAAAAAA").2
      ⟨1, "AAAAAAAAAAAAAAAAAAAAAAAAAAAAAAAA", 0⟩ (by decide) (by decide)⟩

/-- C7: upsert is idempotent on repeated identical calls.  For every
reachable prior store state and every address `A`, a second
`upsert(A, true)` yields literally the same store as the first, and after
it `A` has exactly one record, with `has_nft = 1` (`int(True)`). -/
theorem upsert_idempotent (ops : List (String × Bool)) (A : String) :
    sqlUpsert (sqlUpsert (applyOps initStore ops) A (pyInt true)) A
        (pyInt true)
      = sqlUpsert (applyOps initStore ops) A (pyInt true) ∧
    (((sqlUpsert (applyOps initStore ops) A (pyInt true)).rows.filter
      (fun r => r.wallet_address == A)).length = 1) ∧
    ∀ r ∈ (sqlUpsert (applyOps initStore ops) A (pyInt true)).rows,
      r.wallet_address = A → r.has_nft = 1 := by
  have hinv := inv_applyOps ops initStore inv_initStore
  refine ⟨sqlUpsert_sqlUpsert_same _ A (pyInt true), ?_, ?_⟩
  · rw [← List.countP_eq_length_filter]
    exact countP_sqlUpsert _ A (pyInt true) hinv.1
  · intro r hr hra
    exact sqlUpsert_value _ A (pyInt true) r hr hra

/-- C7 witness: from the empty store, a second `upsert(A, true)` leaves
the single record `⟨1, A, 1⟩` unchanged. -/
theorem upsert_idempotent_witness :
    sqlUpsert (sqlUpsert (applyOps initStore [])
        "AAAAAAAAAAAAAAAAAAAAAAAAAAAAAAAA" (pyInt true))
        "AAAAAAAAAAAAAAAAAAAAAAAAAAAAAAAA" (pyInt true)
      = sqlUpsert (applyOps initStore [])
          "AAAAAAAAAAAAAAAAAAAAAAAAAAAAAAAA" (pyInt true) ∧
    (⟨1, "AAAAAAAAAAAAAAAAAAAAAAAAAAAAAAAA", 1⟩ : Row) ∈
      (sqlUpsert (applyOps initStore [])
        "AAAAAAAAAAAAAAAAAAAAAAAAAAAAAAAA" (pyInt true)).rows ∧
    (⟨1, "AAAAAAAAAAAAAAAAAAAAAAAAAAAAAAAA", 1⟩ : Row).has_nft = 1 :=
  ⟨(upsert_idempotent [] "AAAAAAAAAAAAAAAAAAAAAAAAAAAAAAAA").1,
    by decide,
    (upsert_idempotent [] "AAAAAAAAAAAAAAAAAAAAAAAAAAAAAAAA").2.2
      ⟨1, "AAAAAAAAAAAAAAAAAAAAAAAAAAAAAAAA", 1⟩ (by decide) (by decide)⟩

/-! ### Orchestrator model (`check_wallet`, lines 116-132) -/

/-- The character set Python's `str.strip()` removes: characters with the
Unicode whitespace property (`\t`, `\n`, `\v`, `\f`, `\r`, space, the
C1 separators 0x1C-0x1F, NEL, NBSP, and the Unicode space separators). -/
def pyIsSpace (c : Char) : Bool :=
  (0x09 ≤ c.toNat && c.toNat ≤ 0x0D) ||
  (0x1C ≤ c.toNat && c.toNat ≤ 0x1F) ||
  c.toNat == 0x20 || c.toNat == 0x85 || c.toNat == 0xA0 ||
  c.toNat == 0x1680 ||
  (0x2000 ≤ c.toNat && c.toNat ≤ 0x200A) ||
  c.toNat == 0x2028 || c.toNat == 0x2029 ||
  c.toNat == 0x202F || c.toNat == 0x205F || c.toNat == 0x3000

/-- Python `text.strip()` (line 118): drop whitespace characters from both
ends. -/
def pyStrip (s : String) : String :=
  String.mk (((s.data.dropWhile pyIsSpace).reverse.dropWhile
    pyIsSpace).reverse)

/-- The validator: the length guard of `check_wallet` (line 120),
`len(wallet_address) < 32 or len(wallet_address) > 44`.  `true` means the
input is rejected. -/
def lenGuardRejects (wallet_address : String) : Bool :=
  wallet_address.length < 32 || wallet_address.length > 44

/-- Terminal outcome of one `check_wallet` run: the validation-rejection
notice (line 121), or the reported boolean decision (lines 129-132). -/
inductive Outcome where
  | rejected : Outcome
  | reported : Bool → Outcome
  deriving DecidableEq

/-- Environment of one run: the configured `COLLECTION_ID`, the response
the remote endpoint returns, and the behaviour of the sqlite store. -/
structure Env where
  cid : String
  remote : RemoteResponse
  storage : StorageMode

/-- Observable effects of one `check_wallet` run: the address the remote
query was issued for (`none` when no network call happened), the final
store, and the terminal outcome (`error` when a Python exception escapes
the handler). -/
structure RunResult where
  queried : Option String
  store : Store
  result : Except PyError Outcome

/-- `check_wallet` (lines 116-132): strip the raw text, reject when the
stripped length is outside [32, 44] (no network call, no store change),
otherwise query `check_nft` with the stripped address, persist the
decision via `save_wallet`, and report it.  An exception raised by
`check_nft` or `save_wallet` escapes the handler uncaught. -/
def check_wallet (env : Env) (s : Store) (text : String) : RunResult :=
  let wallet_address := pyStrip text
  if lenGuardRejects wallet_address then
    ⟨none, s, .ok .rejected⟩
  else
    match check_nft env.cid wallet_address env.remote with
    | .error e => ⟨some wallet_address, s, .error e⟩
    | .ok has_nft =>
      match save_wallet env.storage s wallet_address has_nft with
      | .error e => ⟨some wallet_address, s, .error e⟩
      | .ok s2 => ⟨some wallet_address, s2, .ok (.reported has_nft)⟩

/-! ### C3: the validator -/

/-- C3: the length guard accepts exactly the strings of length in the
closed range [32, 44], regardless of character content, and whenever it
rejects the text `check_wallet` checks, the run reports a rejection with
no network call and no ledger write. -/
theorem validator_guard (env : Env) (s : Store) (raw : String) :
    (∀ x : String,
      lenGuardRejects x = false ↔ 32 ≤ x.length ∧ x.length ≤ 44) ∧
    (lenGuardRejects (pyStrip raw) = true →
      check_wallet env s raw = ⟨none, s, .ok .rejected⟩) := by
  constructor
  · intro x
    simp only [lenGuardRejects, Bool.or_eq_false_iff, decide_eq_false_iff_not,
      Nat.not_lt]
  · intro h
    unfold check_wallet
    rw [if_pos h]

/-- C3 witness: the 5-character input `"short"` is rejected with no
network call and no ledger write. -/
theorem validator_guard_witness :
    lenGuardRejects (pyStrip "short") = true ∧
    check_wallet ⟨"TrinityCollectionId", ⟨500, .json none⟩, .ok⟩ initStore
        "short"
      = ⟨none, initStore, .ok .rejected⟩ :=
  ⟨by decide,
    (validator_guard ⟨"TrinityCollectionId", ⟨500, .json none⟩, .ok⟩
      initStore "short").2 (by decide)⟩

/-! ### C4: persistence-failure handling -/

/-- C4 evaluation: the claim fails when the storage is unreachable at
connect time.  `sqlite3.connect` raises `sqlite3.Error`; the `except`
clause catches and logs it, but the `finally` clause then evaluates
`conn.close()` with `conn` never assigned, so `save_wallet` raises
`UnboundLocalError` to its caller, and `check_wallet` terminates with
that exception instead of reporting the verification result. -/
theorem save_wallet_connect_failure_raises :
    save_wallet .connectError initStore
        "AAAAAAAAAAAAAAAAAAAAAAAAAAAAAAAA" false
      = .error .unboundLocalError ∧
    check_wallet ⟨"TrinityCollectionId", ⟨500, .json none⟩, .connectError⟩
        initStore "AAAAAAAAAAAAAAAAAAAAAAAAAAAAAAAA"
      = ⟨some "AAAAAAAAAAAAAAAAAAAAAAAAAAAAAAAA", initStore,
          .error .unboundLocalError⟩ :=
  ⟨rfl, rfl⟩

/-! ### Helper characterizations of a `check_wallet` run -/

theorem check_nft_ok_of_decodable (cid wa : String) (resp : RemoteResponse)
    (h : resp.status_code = 200 → resp.body ≠ .malformed) :
    ∃ b, check_nft cid wa resp = .ok b := by
  obtain ⟨sc, body⟩ := resp
  unfold check_nft
  by_cases hsc : sc = 200
  · rw [if_pos hsc]
    cases body with
    | malformed => exact absurd rfl (h hsc)
    | json items =>
      cases items with
      | none => exact ⟨false, rfl⟩
      | some l => exact ⟨scanAssets cid l, rfl⟩
  · rw [if_neg hsc]
    exact ⟨false, rfl⟩

theorem save_wallet_ok_of_connected (mode : StorageMode) (s : Store)
    (wa : String) (b : Bool) (h : mode ≠ .connectError) :
    ∃ s2, save_wallet mode s wa b = .ok s2 := by
  cases mode with
  | connectError => exact absurd rfl h
  | writeError => exact ⟨s, rfl⟩
  | ok => exact ⟨sqlUpsert s wa (pyInt b), rfl⟩

theorem check_wallet_run (env : Env) (s : Store) (raw : String) (b : Bool)
    (s2 : Store) (hg : lenGuardRejects (pyStrip raw) = false)
    (hb : check_nft env.cid (pyStrip raw) env.remote = .ok b)
    (hs : save_wallet env.storage s (pyStrip raw) b = .ok s2) :
    check_wallet env s raw = ⟨some (pyStrip raw), s2, .ok (.reported b)⟩ := by
  unfold check_wallet
  rw [if_neg (by simp [hg])]
  split
  · rename_i e heq
    rw [hb] at heq
    cases heq
  · rename_i b' heq
    rw [hb] at heq
    injection heq with hbb
    subst hbb
    split
    · rename_i e heq2
      rw [hs] at heq2
      cases heq2
    · rename_i s2' heq2
      rw [hs] at heq2
      injection heq2 with hss
      subst hss
      rfl

theorem check_wallet_queried (env : Env) (s : Store) (raw : String)
    (hg : lenGuardRejects (pyStrip raw) = false) :
    (check_wallet env s raw).queried = some (pyStrip raw) := by
  unfold check_wallet
  rw [if_neg (by simp [hg])]
  split
  · rfl
  · split
    · rfl
    · rfl

theorem lenGuardRejects_eq_true_iff (x : String) :
    lenGuardRejects x = true ↔ x.length < 32 ∨ x.length > 44 := by
  simp [lenGuardRejects]

/-! ### C8: totality of the pipeline -/

/-- C8 counterexample: a run that ends in neither a rejection nor a
reported boolean.  With a valid 44-character address and an HTTP 200
response whose body is malformed, `response.json()` raises inside
`check_nft` and the exception escapes `check_wallet`. -/
theorem check_wallet_error_escape :
    (check_wallet ⟨"TrinityCollectionId", ⟨200, .malformed⟩, .ok⟩ initStore
      "Gh9ZwEmdLJ8DscKNTkTqPbNwLNNBjuSzaG9Vp2KGtKJr").result
      = .error .jsonDecodeError := rfl

/-- C8 amended: whenever the remote response body is decodable (or the
status is non-success) and the storage connection succeeds, every
`check_wallet` run terminates in an explicit rejection or a reported
boolean decision; in particular, when the remote call returns HTTP 500
and storage works, the decision is `false`, the ledger receives the row
`(address, 0)`, and no exception escapes. -/
theorem check_wallet_total (env : Env) (s : Store) (raw : String)
    (hbody : env.remote.status_code = 200 → env.remote.body ≠ .malformed)
    (hconn : env.storage ≠ .connectError) :
    (∃ o : Outcome, (check_wallet env s raw).result = .ok o) ∧
    (env.remote.status_code = 500 → env.storage = .ok →
      lenGuardRejects (pyStrip raw) = false →
      check_wallet env s raw =
        ⟨some (pyStrip raw), sqlUpsert s (pyStrip raw) 0,
          .ok (.reported false)⟩) := by
  constructor
  · by_cases hg : lenGuardRejects (pyStrip raw) = true
    · refine ⟨.rejected, ?_⟩
      rw [(validator_guard env s raw).2 hg]
    · rw [Bool.not_eq_true] at hg
      obtain ⟨b, hb⟩ :=
        check_nft_ok_of_decodable env.cid (pyStrip raw) env.remote hbody
      obtain ⟨s2, hs2⟩ :=
        save_wallet_ok_of_connected env.storage s (pyStrip raw) b hconn
      refine ⟨.reported b, ?_⟩
      rw [check_wallet_run env s raw b s2 hg hb hs2]
  · intro h500 hok hg
    have hb : check_nft env.cid (pyStrip raw) env.remote = .ok false :=
      check_nft_fail_soft env.cid (pyStrip raw) env.remote
        (Or.inl (by rw [h500]; decide))
    have hs2 : save_wallet env.storage s (pyStrip raw) false
        = .ok (sqlUpsert s (pyStrip raw) 0) := by
      rw [hok]
      rfl
    exact check_wallet_run env s raw false _ hg hb hs2

/-- C8 witness: HTTP 500 with working storage at a concrete 44-character
address: decision false, row `(address, 0)`, no exception. -/
theorem check_wallet_total_witness :
    ((⟨"TrinityCollectionId", ⟨500, .json none⟩, .ok⟩ : Env).remote.status_code
        = 200 →
      (⟨"TrinityCollectionId", ⟨500, .json none⟩, .ok⟩ : Env).remote.body
        ≠ .malformed) ∧
    (⟨"TrinityCollectionId", ⟨500, .json none⟩, .ok⟩ : Env).storage
      ≠ .connectError ∧
    check_wallet ⟨"TrinityCollectionId", ⟨500, .json none⟩, .ok⟩ initStore
        "Gh9ZwEmdLJ8DscKNTkTqPbNwLNNBjuSzaG9Vp2KGtKJr"
      = ⟨some "Gh9ZwEmdLJ8DscKNTkTqPbNwLNNBjuSzaG9Vp2KGtKJr",
          sqlUpsert initStore "Gh9ZwEmdLJ8DscKNTkTqPbNwLNNBjuSzaG9Vp2KGtKJr" 0,
          .ok (.reported false)⟩ :=
  ⟨fun h => absurd h (by decide), by decide,
    (check_wallet_total ⟨"TrinityCollectionId", ⟨500, .json none⟩, .ok⟩
      initStore "Gh9ZwEmdLJ8DscKNTkTqPbNwLNNBjuSzaG9Vp2KGtKJr"
      (fun h => absurd h (by decide)) (by decide)).2 rfl rfl (by decide)⟩

/-! ### C9: strip before validate -/

/-- C9: `check_wallet` strips the raw text first, and the stripped string
is what gets length-validated, sent in the remote query, and used as the
ledger key: any raw input whose stripped length is outside [32, 44] is
rejected (whatever the raw length), and any raw input whose stripped
length is inside the range proceeds (even when the raw text itself is
longer than 44 characters), querying and persisting under the stripped
address. -/
theorem strip_before_validate (env : Env) (s : Store) (raw : String) :
    (((pyStrip raw).length < 32 ∨ (pyStrip raw).length > 44) →
      check_wallet env s raw = ⟨none, s, .ok .rejected⟩) ∧
    ((32 ≤ (pyStrip raw).length ∧ (pyStrip raw).length ≤ 44) →
      (check_wallet env s raw).queried = some (pyStrip raw) ∧
      ∀ b s2, check_nft env.cid (pyStrip raw) env.remote = .ok b →
        save_wallet env.storage s (pyStrip raw) b = .ok s2 →
        check_wallet env s raw
          = ⟨some (pyStrip raw), s2, .ok (.reported b)⟩) := by
  constructor
  · intro h
    exact (validator_guard env s raw).2
      ((lenGuardRejects_eq_true_iff (pyStrip raw)).2 h)
  · intro h
    have hg : lenGuardRejects (pyStrip raw) = false := by
      rw [← Bool.not_eq_true, lenGuardRejects_eq_true_iff]
      omega
    exact ⟨check_wallet_queried env s raw hg,
      fun b s2 hb hs => check_wallet_run env s raw b s2 hg hb hs⟩

/-- C9 witness: a raw input of 48 characters (44-character address padded
with two spaces on each side) is accepted and processed under the
stripped address. -/
theorem strip_before_validate_witness :
    (32 ≤ (pyStrip "  Gh9ZwEmdLJ8DscKNTkTqPbNwLNNBjuSzaG9Vp2KGtKJr  ").length ∧
      (pyStrip "  Gh9ZwEmdLJ8DscKNTkTqPbNwLNNBjuSzaG9Vp2KGtKJr  ").length
        ≤ 44) ∧
    check_wallet ⟨"TrinityCollectionId", ⟨500, .json none⟩, .ok⟩ initStore
        "  Gh9ZwEmdLJ8DscKNTkTqPbNwLNNBjuSzaG9Vp2KGtKJr  "
      = ⟨some "Gh9ZwEmdLJ8DscKNTkTqPbNwLNNBjuSzaG9Vp2KGtKJr",
          sqlUpsert initStore "Gh9ZwEmdLJ8DscKNTkTqPbNwLNNBjuSzaG9Vp2KGtKJr" 0,
          .ok (.reported false)⟩ :=
  ⟨by decide,
    ((strip_before_validate ⟨"TrinityCollectionId", ⟨500, .json none⟩, .ok⟩
      initStore "  Gh9ZwEmdLJ8DscKNTkTqPbNwLNNBjuSzaG9Vp2KGtKJr  ").2
        (by decide)).2 false
      (sqlUpsert initStore "Gh9ZwEmdLJ8DscKNTkTqPbNwLNNBjuSzaG9Vp2KGtKJr" 0)
      rfl rfl⟩

/-! ### C10: the flag column holds only 0 or 1 -/

theorem pyInt_zero_or_one (b : Bool) : pyInt b = 0 ∨ pyInt b = 1 := by
  cases b
  · exact Or.inl rfl
  · exact Or.inr rfl

theorem sqlUpsert_flag (s : Store) (a : String) (v : Int)
    (hv : v = 0 ∨ v = 1)
    (h : ∀ r ∈ s.rows, r.has_nft = 0 ∨ r.has_nft = 1) :
    ∀ r ∈ (sqlUpsert s a v).rows, r.has_nft = 0 ∨ r.has_nft = 1 := by
  intro r hr
  unfold sqlUpsert at hr
  by_cases hc : (s.rows.any fun r => r.wallet_address == a) = true
  · rw [if_pos hc] at hr
    obtain ⟨x, hx, rfl⟩ := List.mem_map.1 hr
    by_cases hxa : (x.wallet_address == a) = true
    · rw [if_pos hxa]
      exact hv
    · rw [if_neg hxa]
      exact h x hx
  · rw [if_neg hc] at hr
    rcases List.mem_append.1 hr with hr | hr
    · exact h r hr
    · rw [List.mem_singleton] at hr
      subst hr
      exact hv

theorem applyOps_flag (ops : List (String × Bool)) (s : Store)
    (h : ∀ r ∈ s.rows, r.has_nft = 0 ∨ r.has_nft = 1) :
    ∀ r ∈ (applyOps s ops).rows, r.has_nft = 0 ∨ r.has_nft = 1 := by
  induction ops generalizing s with
  | nil => exact h
  | cons op ops ih =>
    exact ih _ (sqlUpsert_flag s op.1 (pyInt op.2)
      (pyInt_zero_or_one op.2) h)

/-- C10: every upsert stores the flag as `int(has_nft)`, whose image is
`{0, 1}`, so after any sequence of `save_wallet` calls every record's
`has_nft` column value is exactly `0` or `1` — preserved by both the
insert and the on-conflict-update branch of `sqlUpsert`. -/
theorem has_nft_flag_integral (ops : List (String × Bool)) :
    (∀ b : Bool, pyInt b = 0 ∨ pyInt b = 1) ∧
    ∀ r ∈ (applyOps initStore ops).rows,
      r.has_nft = 0 ∨ r.has_nft = 1 :=
  ⟨pyInt_zero_or_one,
    applyOps_flag ops initStore (by intro r hr; cases hr)⟩

/-- C10 witness: the record written for a concrete insert-then-update run
carries flag value 0. -/
theorem has_nft_flag_integral_witness :
    (⟨1, "AAAAAAAAAAAAAAAAAAAAAAAAAAAAAAAA", 0⟩ : Row) ∈
      (applyOps initStore
        [("AAAAAAAAAAAAAAAAAAAAAAAAAAAAAAAA", true),
         ("AAAAAAAAAAAAAAAAAAAAAAAAAAAAAAAA", false)]).rows ∧
    ((⟨1, "AAAAAAAAAAAAAAAAAAAAAAAAAAAAAAAA", 0⟩ : Row).has_nft = 0 ∨
      (⟨1, "AAAAAAAAAAAAAAAAAAAAAAAAAAAAAAAA", 0⟩ : Row).has_nft = 1) :=
  ⟨by decide,
    (has_nft_flag_integral
      [("AAAAAAAAAAAAAAAAAAAAAAAAAAAAAAAA", true),
       ("AAAAAAAAAAAAAAAAAAAAAAAAAAAAAAAA", false)]).2
      ⟨1, "AAAAAAAAAAAAAAAAAAAAAAAAAAAAAAAA", 0⟩ (by decide)⟩

end CheckNft

